import Mathlib

/-!
Verification of the Foreman partition-table reconciliation module
(`foreman_ptable.py`).

The module's `ensure()` routine is shallowly embedded: the remote Foreman
store, the location table and the filesystem become an explicit `World`
record, every client call is logged as an `Event`, Ansible's `fail_json`
becomes the `Outcome.fail` constructor, and the `(changed, ptable)` return
value becomes `Outcome.ok`.  The translation follows the Python source
line by line:

* `search_partition_table(data={'name': name})` — first match by name,
* `get_location_ids`                            — per-name lookups, failing
  on the first miss with the message of the source,
* the layout / template_file validation and file read,
* the four-way decision tree on (found?, state),
* `get/create/update/delete_partition_table`.

Python dictionary access `ptable.get('layout')` may yield `None`, so a
remote record's `layout` is an `Option String`; the raw module parameters
`layout` / `template_file` are `Option String` as well, and Python
truthiness (`None` and `''` are falsy) is the `truthy` function.
The `data` dict passed to create/update is `PTData`; its `location_ids`
field is `none` when the key was never inserted.
-/

namespace Foreman

/-- A remote partition-table record, as the Foreman server stores it.
Fields mirror the dictionary the API returns; `layout` and `os_family`
are optional because `dict.get` yields `None` for a missing key. -/
structure Resource where
  id : Nat
  name : String
  layout : Option String
  os_family : Option String
  location_ids : List Nat
deriving DecidableEq

/-- The module's input parameters (the desired-state descriptor):
`name`, `layout`, `template_file`, `os_family`, `locations`, `state`
exactly as read from `module.params`. -/
structure Descriptor where
  name : String
  layout : Option String := none
  template_file : Option String := none
  os_family : Option String := none
  locations : List String := []
  state : String := "present"
deriving DecidableEq

/-- The `data` dictionary passed to create/update: `name` always,
`location_ids` only when the locations parameter was non-empty
(`none` = key absent), `layout` always a string after validation,
`os_family` always present but possibly `None`. -/
structure PTData where
  name : String
  location_ids : Option (List Nat)
  layout : String
  os_family : Option String
deriving DecidableEq

/-- One remote client call (or file read) issued by a reconciliation run,
in the order the run issues them. -/
inductive Event where
  | searchPT (name : String)
  | searchLoc (name : String)
  | readFile (path : String)
  | getPT (id : Nat)
  | createPT (data : PTData)
  | updatePT (id : Nat) (data : PTData)
  | deletePT (id : Nat)
deriving DecidableEq

/-- The result of a run: `ok changed ptable` for a normal return of
`ensure()`, `fail msg` for `module.fail_json(msg=...)`. -/
inductive Outcome where
  | ok (changed : Bool) (result : Option Resource)
  | fail (msg : String)
deriving DecidableEq

/-- The external world: the server's partition tables and locations, the
filesystem, and per-operation fault flags standing for `ForemanError`
being raised by the corresponding client call. -/
structure World where
  ptables : List Resource := []
  nextId : Nat := 1
  locations : List (String × Nat) := []
  files : List (String × String) := []
  searchPTErr : Bool := false
  searchLocErr : Bool := false
  getErr : Bool := false
  createErr : Bool := false
  updateErr : Bool := false
  deleteErr : Bool := false
deriving DecidableEq

/-- Python truthiness of an optional string parameter: `None` and the
empty string are falsy. -/
def truthy : Option String → Bool
  | none => false
  | some s => s != ""

/-- The server's `search_partition_table(data={'name': n})`: first stored
record whose name is `n`. -/
def findByName : List Resource → String → Option Resource
  | [], _ => none
  | r :: t, n => if r.name = n then some r else findByName t n

/-- The server's `get_partition_table(id=i)`: first stored record with
id `i`. -/
def findById : List Resource → Nat → Option Resource
  | [], _ => none
  | r :: t, i => if r.id = i then some r else findById t i

/-- Association-list lookup (used for the location table and the
filesystem). -/
def lookupAssoc {α : Type} : List (String × α) → String → Option α
  | [], _ => none
  | p :: t, k => if p.1 = k then some p.2 else lookupAssoc t k

/-- `search_location(data={'name': n})` reduced to the id the module
extracts from it: `none` when the server has no such location. -/
def findLocationId (w : World) (n : String) : Option Nat :=
  lookupAssoc w.locations n

/-- Reading `template_file` from the filesystem; `none` = `IOError`. -/
def readFileW (w : World) (path : String) : Option String :=
  lookupAssoc w.files path

/-- The ids `get_location_ids` would collect when every name resolves. -/
def resolveIds (w : World) (ls : List String) : List Nat :=
  ls.map (fun l => (findLocationId w l).getD 0)

/-- `get_location_ids(module, theforeman, locations)`: walk the names in
order, emit one `searchLoc` event per attempted lookup, fail with the
source's message on a client error or on the first name with no match. -/
def locationLookups (w : World) : List String → Except String (List Nat) × List Event
  | [] => (Except.ok [], [])
  | l :: ls =>
    if w.searchLocErr then
      (Except.error "Could not get Locations: error", [Event.searchLoc l])
    else
      match findLocationId w l with
      | none => (Except.error ("Could not find Location " ++ l), [Event.searchLoc l])
      | some i =>
        match locationLookups w ls with
        | (Except.ok is, evs) => (Except.ok (i :: is), Event.searchLoc l :: evs)
        | (Except.error m, evs) => (Except.error m, Event.searchLoc l :: evs)

/-- The first location name of a list that the server cannot resolve. -/
def firstMiss (w : World) : List String → Option String
  | [] => none
  | l :: ls => if (findLocationId w l).isSome then firstMiss w ls else some l

/-- The `data` dict as it stands when the decision tree runs: name,
optional `location_ids` key, resolved layout string, and the (possibly
`None`) `os_family` value. -/
def mkData (d : Descriptor) (locIds : Option (List Nat)) (layout : String) : PTData :=
  { name := d.name, location_ids := locIds, layout := layout, os_family := d.os_family }

/-- `create_partition_table(data)`: the server stores a new record built
from `data` under a fresh id and returns it. -/
def applyCreate (w : World) (pd : PTData) : Resource × World :=
  let r : Resource :=
    { id := w.nextId,
      name := pd.name,
      layout := some pd.layout,
      os_family := pd.os_family,
      location_ids := pd.location_ids.getD [] }
  (r, { w with ptables := w.ptables ++ [r], nextId := w.nextId + 1 })

/-- The record with id `i` replaced by `r`; other records untouched. -/
def replaceById : List Resource → Nat → Resource → List Resource
  | [], _, _ => []
  | x :: t, i, r => (if x.id = i then r else x) :: replaceById t i r

/-- The store with every record of id `i` removed. -/
def removeById : List Resource → Nat → List Resource
  | [], _ => []
  | x :: t, i => if x.id = i then removeById t i else x :: removeById t i

/-- How the server rewrites a stored record from an update's `data`:
the sent fields overwrite; an absent `location_ids` key leaves the
existing association untouched. -/
def applyUpdateRec (old : Resource) (pd : PTData) : Resource :=
  { old with
    name := pd.name,
    layout := some pd.layout,
    os_family := pd.os_family,
    location_ids := pd.location_ids.getD old.location_ids }

/-- `update_partition_table(id=i, data=pd)`: rewrite the record with id
`i` and return the rewritten record. -/
def applyUpdate (w : World) (i : Nat) (pd : PTData) : Option Resource × World :=
  match findById w.ptables i with
  | none => (none, w)
  | some old =>
    (some (applyUpdateRec old pd),
     { w with ptables := replaceById w.ptables i (applyUpdateRec old pd) })

/-- `delete_partition_table(id=i)`: remove the record with id `i` and
return it. -/
def applyDelete (w : World) (i : Nat) : Option Resource × World :=
  (findById w.ptables i, { w with ptables := removeById w.ptables i })

/-- Lines 137-165 of the source: the decision tree on the search result
`pt` and `state`, evaluated after `data` is complete.  Mirrors the three
`if` statements and the final `return False, ptable`. -/
def decisionStep (d : Descriptor) (w : World) (pt : Option Resource)
    (data : PTData) (evs : List Event) : Outcome × World × List Event :=
  match pt with
  | none =>
    if d.state = "present" then
      if w.createErr then
        (Outcome.fail "Could not create partition table: error", w,
         evs ++ [Event.createPT data])
      else
        ((Outcome.ok true (some (applyCreate w data).1)), (applyCreate w data).2,
         evs ++ [Event.createPT data])
    else
      (Outcome.ok false none, w, evs)
  | some p =>
    if d.state = "absent" then
      if w.deleteErr then
        (Outcome.fail "Could not delete partition table: error", w,
         evs ++ [Event.deletePT p.id])
      else
        (Outcome.ok true (applyDelete w p.id).1, (applyDelete w p.id).2,
         evs ++ [Event.deletePT p.id])
    else if d.state = "present" then
      if w.getErr then
        (Outcome.fail "Could not get partition table to update: error", w,
         evs ++ [Event.getPT p.id])
      else
        match findById w.ptables p.id with
        | none =>
          (Outcome.fail "Could not get partition table to update: error", w,
           evs ++ [Event.getPT p.id])
        | some r =>
          if r.layout = d.layout ∨ r.layout = some data.layout then
            (Outcome.ok false (some r), w, evs ++ [Event.getPT p.id])
          else if w.updateErr then
            (Outcome.fail "Could not update partition table: error", w,
             evs ++ [Event.getPT p.id, Event.updatePT r.id data])
          else
            (Outcome.ok true (applyUpdate w r.id data).1,
             (applyUpdate w r.id data).2,
             evs ++ [Event.getPT p.id, Event.updatePT r.id data])
    else
      (Outcome.ok false (some p), w, evs)

/-- Lines 123-135 of the source: the mutual-exclusivity validation of
`layout` / `template_file`, the layout resolution (reading the template
file when needed), then `data['os_family'] = os_family` (folded into
`mkData`) and the decision tree. -/
def layoutStep (d : Descriptor) (w : World) (pt : Option Resource)
    (locIds : Option (List Nat)) (evs : List Event) : Outcome × World × List Event :=
  if !truthy d.layout && !truthy d.template_file then
    (Outcome.fail "Either layout or template_file must be defined", w, evs)
  else if truthy d.layout && truthy d.template_file then
    (Outcome.fail "Only one of either layout or template_file must be defined", w, evs)
  else if truthy d.layout then
    decisionStep d w pt (mkData d locIds (d.layout.getD "")) evs
  else
    match readFileW w (d.template_file.getD "") with
    | none =>
      (Outcome.fail ("Could not open file " ++ d.template_file.getD "" ++ ": error"),
       w, evs ++ [Event.readFile (d.template_file.getD "")])
    | some c =>
      decisionStep d w pt (mkData d locIds c) (evs ++ [Event.readFile (d.template_file.getD "")])

/-- Lines 120-121 of the source: `if locations:` resolve every location
name to an id (the key is only added when the list is non-empty), then
continue with validation. -/
def locStep (d : Descriptor) (w : World) (pt : Option Resource)
    (evs : List Event) : Outcome × World × List Event :=
  if d.locations.isEmpty then
    layoutStep d w pt none evs
  else
    match locationLookups w d.locations with
    | (Except.ok is, levs) => layoutStep d w pt (some is) (evs ++ levs)
    | (Except.error m, levs) => (Outcome.fail m, w, evs ++ levs)

/-- The whole of `ensure()` (lines 105-165): search the store by name
first (failing on a client error), then locations, validation, layout
resolution and the decision tree. -/
def ensure (d : Descriptor) (w : World) : Outcome × World × List Event :=
  if w.searchPTErr then
    (Outcome.fail "Could not get partition table: error", w, [Event.searchPT d.name])
  else
    locStep d w (findByName w.ptables d.name) [Event.searchPT d.name]

/-- The outcome of a run. -/
def ensureOutcome (d : Descriptor) (w : World) : Outcome := (ensure d w).1

/-- The world a run leaves behind. -/
def ensureWorld (d : Descriptor) (w : World) : World := (ensure d w).2.1

/-- The ordered calls a run issued. -/
def ensureTrace (d : Descriptor) (w : World) : List Event := (ensure d w).2.2

/-- Location-lookup events. -/
def locEvent : Event → Bool
  | Event.searchLoc _ => true
  | _ => false

/-- File-read events. -/
def fileEvent : Event → Bool
  | Event.readFile _ => true
  | _ => false

/-- The conditional tail calls of the decision tree: fetch, create,
update, delete. -/
def condEvent : Event → Bool
  | Event.getPT _ => true
  | Event.createPT _ => true
  | Event.updatePT _ _ => true
  | Event.deletePT _ => true
  | _ => false

/-- Mutating remote calls: create, update, delete. -/
def mutEvent : Event → Bool
  | Event.createPT _ => true
  | Event.updatePT _ _ => true
  | Event.deletePT _ => true
  | _ => false

/-- How many mutating calls a trace holds. -/
def mutCount (tr : List Event) : Nat := (tr.filter mutEvent).length

/-- The data payloads handed to create or update calls of a trace. -/
def payloads (tr : List Event) : List PTData :=
  tr.filterMap (fun e =>
    match e with
    | Event.createPT pd => some pd
    | Event.updatePT _ pd => some pd
    | _ => none)

/-- Failure outcomes. -/
def isFail : Outcome → Bool
  | Outcome.fail _ => true
  | _ => false

/-- The `location_ids` value the decision tree sees: absent for an empty
locations parameter, the resolved ids otherwise. -/
def optIds (d : Descriptor) (w : World) : Option (List Nat) :=
  if d.locations.isEmpty then none else some (resolveIds w d.locations)

/-- The spec's resolved desired layout: the file contents when
`template_file` is used, the literal layout string otherwise, `none`
when neither resolves. -/
def resolvedLayout (d : Descriptor) (w : World) : Option String :=
  if truthy d.layout then d.layout
  else if truthy d.template_file then readFileW w (d.template_file.getD "")
  else none

/-- The resolved layout as the string stored into `data['layout']`. -/
def resolvedVal (d : Descriptor) (w : World) : String :=
  (resolvedLayout d w).getD ""

/-- A descriptor whose layout source passes validation and resolves in
world `w`: exactly one of layout / template_file is (truthily) supplied
and the resolution yields a string. -/
def validLayout (d : Descriptor) (w : World) : Bool :=
  (truthy d.layout != truthy d.template_file) && (resolvedLayout d w).isSome

/-- The file-read events of a run that resolves its layout. -/
def fileEvs (d : Descriptor) : List Event :=
  if truthy d.layout then [] else [Event.readFile (d.template_file.getD "")]

/-- The location-lookup events of a run whose locations all resolve. -/
def locEvs (d : Descriptor) : List Event :=
  d.locations.map Event.searchLoc

/-- No client call of this world raises `ForemanError`. -/
def NoClientErr (w : World) : Prop :=
  w.searchPTErr = false ∧ w.searchLocErr = false ∧ w.getErr = false ∧
  w.createErr = false ∧ w.updateErr = false ∧ w.deleteErr = false

instance (w : World) : Decidable (NoClientErr w) := by
  unfold NoClientErr
  infer_instance

/-- A well-formed server store: record ids are distinct, names are
distinct (the spec's "name is the natural key"), and the id counter is
ahead of every stored id. -/
def WF (w : World) : Prop :=
  (w.ptables.map Resource.id).Nodup ∧ (w.ptables.map Resource.name).Nodup ∧
  ∀ r ∈ w.ptables, r.id < w.nextId

instance (w : World) : Decidable (WF w) := by
  unfold WF
  infer_instance

/-! Concrete inputs used by the witnesses and counterexamples below. -/

/-- C1 counterexample input: both layout and template_file supplied. -/
def dX1 : Descriptor := { name := "pt1", layout := some "lay", template_file := some "tf" }

/-- C1 witness input: neither layout nor template_file supplied. -/
def dW1 : Descriptor := { name := "w1" }

/-- C1 witness world: a matching record exists (and stays untouched). -/
def wW1 : World := { ptables := [{ id := 11, name := "w1", layout := some "z", os_family := none, location_ids := [] }] }

/-- C2 counterexample descriptor: layout comes from a template file. -/
def dX2 : Descriptor := { name := "p2", template_file := some "f2" }

/-- C2 counterexample stored record: its layout key is absent. -/
def rX2 : Resource := { id := 2, name := "p2", layout := none, os_family := none, location_ids := [] }

/-- C2 counterexample world. -/
def wX2 : World := { ptables := [rX2], files := [("f2", "zfs")] }

/-- C2 witness descriptor: literal layout equal to the stored one. -/
def dW2 : Descriptor := { name := "w2", layout := some "A" }

/-- C2 witness stored record. -/
def rW2 : Resource := { id := 6, name := "w2", layout := some "A", os_family := none, location_ids := [] }

/-- C2 witness world. -/
def wW2 : World := { ptables := [rW2] }

/-- C3 counterexample descriptor: template-file layout. -/
def dX3 : Descriptor := { name := "q", template_file := some "tm" }

/-- C3 counterexample stored record with no layout value. -/
def rX3 : Resource := { id := 7, name := "q", layout := none, os_family := some "bsd", location_ids := [] }

/-- C3 counterexample world. -/
def wX3 : World := { ptables := [rX3], files := [("tm", "thin")] }

/-- C3 witness descriptor: a fresh Present resource. -/
def dW3 : Descriptor := { name := "n3", layout := some "L3" }

/-- C3 witness: the world the first (creating) run leaves behind. -/
def wW3after : World :=
  { ptables := [{ id := 1, name := "n3", layout := some "L3", os_family := none, location_ids := [] }], nextId := 2 }

/-- C4 witness descriptor: the spec's FreeBSD example. -/
def dW4 : Descriptor := { name := "FreeBSD", layout := some "zfs on root", os_family := some "FreeBSD" }

/-- C5 counterexample descriptor: Absent with neither layout source. -/
def dX5 : Descriptor := { name := "p5", state := "absent" }

/-- C5 counterexample world: a matching record exists. -/
def wX5 : World := { ptables := [{ id := 3, name := "p5", layout := some "x", os_family := none, location_ids := [] }] }

/-- C5 witness descriptor: valid Absent descriptor. -/
def dW5 : Descriptor := { name := "gone", layout := some "l", state := "absent" }

/-- C5 witness stored record. -/
def rW5 : Resource := { id := 4, name := "gone", layout := some "x", os_family := none, location_ids := [] }

/-- C5 witness world. -/
def wW5 : World := { ptables := [rW5] }

/-- C6 counterexample descriptor: template file plus one location. -/
def dX6 : Descriptor := { name := "n6", template_file := some "f6", locations := ["l6"] }

/-- C6 counterexample world. -/
def wX6 : World := { locations := [("l6", 3)], files := [("f6", "LL")] }

/-- C7 witness descriptor: one resolvable and one unresolvable location. -/
def dW7 : Descriptor := { name := "n7", layout := some "x", locations := ["locA", "locB"] }

/-- C7 witness world: only locA exists. -/
def wW7 : World := { locations := [("locA", 9)] }

/-- C8 counterexample descriptor: a successful no-op run (Absent, no match). -/
def dX8 : Descriptor := { name := "n8", layout := some "l8", state := "absent" }

/-- C8 witness descriptor: a run failing validation. -/
def dW8 : Descriptor := { name := "w8" }

/-- C9 witness descriptor: empty locations, Present create. -/
def dW9 : Descriptor := { name := "n9", layout := some "ly" }

/-- C10 witness descriptor: update triggered by a layout difference. -/
def dW10 : Descriptor := { name := "u", layout := some "new", os_family := some "fam" }

/-- C10 witness world: the stored record differs in layout and os_family. -/
def wW10 : World := { ptables := [{ id := 5, name := "u", layout := some "old", os_family := some "oldfam", location_ids := [] }] }

/-! Helper lemmas about the embedded operations. -/

theorem locationLookups_ok (w : World) (ls : List String)
    (hle : w.searchLocErr = false)
    (h : ∀ l ∈ ls, (findLocationId w l).isSome = true) :
    locationLookups w ls = (Except.ok (resolveIds w ls), ls.map Event.searchLoc) := by
  induction ls with
  | nil => simp [locationLookups, resolveIds]
  | cons l t ih =>
    obtain ⟨i, hi⟩ := Option.isSome_iff_exists.mp (h l (by simp))
    have ht : ∀ x ∈ t, (findLocationId w x).isSome = true := fun x hx => h x (by simp [hx])
    simp [locationLookups, hle, hi, ih ht, resolveIds]

theorem locationLookups_evs (w : World) (ls : List String) :
    ((locationLookups w ls).2).all locEvent = true := by
  induction ls with
  | nil => simp [locationLookups]
  | cons l t ih =>
    by_cases he : w.searchLocErr
    · simp [locationLookups, he, locEvent]
    · cases hf : findLocationId w l with
      | none => simp [locationLookups, he, hf, locEvent]
      | some i =>
        cases hr : locationLookups w t with
        | mk res evs =>
          rw [hr] at ih
          cases res with
          | ok is => simp [locationLookups, he, hf, hr, locEvent, ih]
          | error m => simp [locationLookups, he, hf, hr, locEvent, ih]

theorem firstMiss_none_iff (w : World) (ls : List String) :
    firstMiss w ls = none ↔ ∀ l ∈ ls, (findLocationId w l).isSome = true := by
  induction ls with
  | nil => simp [firstMiss]
  | cons l t ih =>
    by_cases hf : (findLocationId w l).isSome
    · simp [firstMiss, hf, ih]
    · simp [firstMiss, hf]

theorem locationLookups_miss (w : World) (ls : List String) (l₀ : String)
    (hle : w.searchLocErr = false) (hm : firstMiss w ls = some l₀) :
    ∃ evs, locationLookups w ls = (Except.error ("Could not find Location " ++ l₀), evs) ∧
      evs.all locEvent = true := by
  induction ls with
  | nil => simp [firstMiss] at hm
  | cons l t ih =>
    by_cases hf : (findLocationId w l).isSome
    · obtain ⟨i, hi⟩ := Option.isSome_iff_exists.mp hf
      rw [firstMiss, if_pos hf] at hm
      obtain ⟨evs, he1, he2⟩ := ih hm
      refine ⟨Event.searchLoc l :: evs, ?_, ?_⟩
      · simp [locationLookups, hle, hi, he1]
      · simp [locEvent, he2]
    · rw [firstMiss, if_neg hf] at hm
      have hn : findLocationId w l = none := Option.not_isSome_iff_eq_none.mp hf
      obtain rfl : l = l₀ := Option.some.inj hm
      exact ⟨[Event.searchLoc l], by simp [locationLookups, hle, hn], by simp [locEvent]⟩

theorem findByName_mem (l : List Resource) (n : String) (p : Resource)
    (h : findByName l n = some p) : p ∈ l ∧ p.name = n := by
  induction l with
  | nil => simp [findByName] at h
  | cons a t ih =>
    by_cases ha : a.name = n
    · rw [findByName, if_pos ha] at h
      obtain rfl : a = p := Option.some.inj h
      exact ⟨by simp, ha⟩
    · rw [findByName, if_neg ha] at h
      obtain ⟨h1, h2⟩ := ih h
      exact ⟨by simp [h1], h2⟩

theorem findById_mem (l : List Resource) (i : Nat) (r : Resource)
    (h : findById l i = some r) : r ∈ l ∧ r.id = i := by
  induction l with
  | nil => simp [findById] at h
  | cons a t ih =>
    by_cases ha : a.id = i
    · rw [findById, if_pos ha] at h
      obtain rfl : a = r := Option.some.inj h
      exact ⟨by simp, ha⟩
    · rw [findById, if_neg ha] at h
      obtain ⟨h1, h2⟩ := ih h
      exact ⟨by simp [h1], h2⟩

theorem findByName_none_of (l : List Resource) (n : String)
    (h : ∀ r ∈ l, r.name ≠ n) : findByName l n = none := by
  induction l with
  | nil => rfl
  | cons a t ih =>
    rw [findByName, if_neg (h a (by simp))]
    exact ih (fun r hr => h r (by simp [hr]))

theorem findById_none_of (l : List Resource) (i : Nat)
    (h : ∀ r ∈ l, r.id ≠ i) : findById l i = none := by
  induction l with
  | nil => rfl
  | cons a t ih =>
    rw [findById, if_neg (h a (by simp))]
    exact ih (fun r hr => h r (by simp [hr]))

theorem findByName_append (l1 l2 : List Resource) (n : String)
    (h : findByName l1 n = none) :
    findByName (l1 ++ l2) n = findByName l2 n := by
  induction l1 with
  | nil => rfl
  | cons a t ih =>
    by_cases ha : a.name = n
    · rw [findByName, if_pos ha] at h
      exact absurd h (by simp)
    · rw [findByName, if_neg ha] at h
      rw [List.cons_append, findByName, if_neg ha]
      exact ih h

theorem findById_append (l1 l2 : List Resource) (i : Nat)
    (h : findById l1 i = none) :
    findById (l1 ++ l2) i = findById l2 i := by
  induction l1 with
  | nil => rfl
  | cons a t ih =>
    by_cases ha : a.id = i
    · rw [findById, if_pos ha] at h
      exact absurd h (by simp)
    · rw [findById, if_neg ha] at h
      rw [List.cons_append, findById, if_neg ha]
      exact ih h

theorem findById_self_of_nodup (l : List Resource) (p : Resource)
    (hn : (l.map Resource.id).Nodup) (hm : p ∈ l) : findById l p.id = some p := by
  induction l with
  | nil => simp at hm
  | cons a t ih =>
    rw [List.map_cons, List.nodup_cons] at hn
    rcases List.mem_cons.mp hm with rfl | hmt
    · rw [findById, if_pos rfl]
    · have ha : a.id ≠ p.id := by
        intro he
        exact hn.1 (he ▸ List.mem_map_of_mem Resource.id hmt)
      rw [findById, if_neg ha]
      exact ih hn.2 hmt

theorem findById_det (l : List Resource) (p : Resource) (n : String)
    (hids : (l.map Resource.id).Nodup)
    (hp : findByName l n = some p) : findById l p.id = some p :=
  findById_self_of_nodup l p hids (findByName_mem l n p hp).1

theorem findByName_replace (l : List Resource) (n : String) (p r' : Resource)
    (h : findByName l n = some p)
    (hids : (l.map Resource.id).Nodup)
    (hn : r'.name = n) :
    findByName (replaceById l p.id r') n = some r' := by
  induction l with
  | nil => simp [findByName] at h
  | cons a t ih =>
    rw [List.map_cons, List.nodup_cons] at hids
    by_cases ha : a.name = n
    · rw [findByName, if_pos ha] at h
      obtain rfl : a = p := Option.some.inj h
      rw [replaceById, if_pos rfl, findByName, if_pos hn]
    · rw [findByName, if_neg ha] at h
      have hpt : p ∈ t := (findByName_mem t n p h).1
      have haid : a.id ≠ p.id := by
        intro he
        exact hids.1 (he ▸ List.mem_map_of_mem Resource.id hpt)
      rw [replaceById, if_neg haid, findByName, if_neg ha]
      exact ih h hids.2

theorem findById_replace (l : List Resource) (i : Nat) (p r' : Resource)
    (h : findById l i = some p) (hr : r'.id = i) :
    findById (replaceById l i r') i = some r' := by
  induction l with
  | nil => simp [findById] at h
  | cons a t ih =>
    by_cases ha : a.id = i
    · rw [replaceById, if_pos ha, findById, if_pos hr]
    · rw [findById, if_neg ha] at h
      rw [replaceById, if_neg ha, findById, if_neg ha]
      exact ih h

theorem removeById_subset (l : List Resource) (i : Nat) (r : Resource)
    (h : r ∈ removeById l i) : r ∈ l := by
  induction l with
  | nil => simp [removeById] at h
  | cons a t ih =>
    by_cases ha : a.id = i
    · rw [removeById, if_pos ha] at h
      exact List.mem_cons_of_mem a (ih h)
    · rw [removeById, if_neg ha] at h
      rcases List.mem_cons.mp h with rfl | ht
      · simp
      · exact List.mem_cons_of_mem a (ih ht)

theorem findByName_remove (l : List Resource) (n : String) (p : Resource)
    (h : findByName l n = some p)
    (hnames : (l.map Resource.name).Nodup)
    (hids : (l.map Resource.id).Nodup) :
    findByName (removeById l p.id) n = none := by
  induction l with
  | nil => simp [findByName] at h
  | cons a t ih =>
    rw [List.map_cons, List.nodup_cons] at hnames hids
    by_cases ha : a.name = n
    · rw [findByName, if_pos ha] at h
      obtain rfl : a = p := Option.some.inj h
      rw [removeById, if_pos rfl]
      apply findByName_none_of
      intro r hr hrn
      have hmem : r.name ∈ t.map Resource.name :=
        List.mem_map_of_mem Resource.name (removeById_subset t a.id r hr)
      rw [hrn, ← ha] at hmem
      exact hnames.1 hmem
    · rw [findByName, if_neg ha] at h
      have hpt : p ∈ t := (findByName_mem t n p h).1
      have haid : a.id ≠ p.id := by
        intro he
        exact hids.1 (he ▸ List.mem_map_of_mem Resource.id hpt)
      rw [removeById, if_neg haid, findByName, if_neg ha]
      exact ih h hnames.2 hids.2

theorem layoutStep_eq_decision (d : Descriptor) (w : World) (pt : Option Resource)
    (locIds : Option (List Nat)) (evs : List Event)
    (hv : validLayout d w = true) :
    layoutStep d w pt locIds evs =
      decisionStep d w pt (mkData d locIds (resolvedVal d w)) (evs ++ fileEvs d) := by
  unfold validLayout at hv
  cases hl : truthy d.layout with
  | true =>
    cases ht : truthy d.template_file with
    | true => rw [hl, ht] at hv; simp at hv
    | false =>
      have hres : resolvedLayout d w = d.layout := by rw [resolvedLayout, if_pos hl]
      rw [layoutStep, if_neg (by simp [hl]), if_neg (by simp [hl, ht]), if_pos hl]
      simp [resolvedVal, hres, fileEvs, hl]
  | false =>
    cases ht : truthy d.template_file with
    | false => rw [hl, ht] at hv; simp at hv
    | true =>
      have hres : resolvedLayout d w = readFileW w (d.template_file.getD "") := by
        rw [resolvedLayout, if_neg (by simp [hl]), if_pos ht]
      rw [hl, ht] at hv
      simp at hv
      rw [hres] at hv
      obtain ⟨c, hc⟩ := Option.isSome_iff_exists.mp hv
      rw [layoutStep, if_neg (by simp [ht]), if_neg (by simp [hl]), if_neg (by simp [hl])]
      simp [hc, resolvedVal, hres, fileEvs, hl]

theorem ensure_eq_decision (d : Descriptor) (w : World)
    (hse : w.searchPTErr = false) (hle : w.searchLocErr = false)
    (hlocs : ∀ l ∈ d.locations, (findLocationId w l).isSome = true)
    (hv : validLayout d w = true) :
    ensure d w = decisionStep d w (findByName w.ptables d.name)
      (mkData d (optIds d w) (resolvedVal d w))
      (Event.searchPT d.name :: (locEvs d ++ fileEvs d)) := by
  rw [ensure, if_neg (by simp [hse])]
  by_cases hemp : d.locations.isEmpty
  · rw [locStep, if_pos hemp]
    have h1 : optIds d w = none := by rw [optIds, if_pos hemp]
    have h2 : locEvs d = [] := by
      rw [locEvs, List.isEmpty_iff.mp hemp]
      rfl
    rw [layoutStep_eq_decision d w _ none _ hv, h1, h2]
    rfl
  · rw [locStep, if_neg hemp]
    have h1 : optIds d w = some (resolveIds w d.locations) := by rw [optIds, if_neg hemp]
    simp only [locationLookups_ok w d.locations hle hlocs]
    rw [layoutStep_eq_decision d w _ _ _ hv, h1]
    rfl

theorem loc_prefix_facts (l : List Event) (h : l.all locEvent = true) :
    mutCount l = 0 ∧ payloads l = [] ∧ ∀ i pd, Event.updatePT i pd ∉ l := by
  induction l with
  | nil => simp [mutCount, payloads]
  | cons a t ih =>
    rw [List.all_cons, Bool.and_eq_true] at h
    obtain ⟨m, p, u⟩ := ih h.2
    cases a with
    | searchLoc n =>
      refine ⟨?_, ?_, ?_⟩
      · simp [mutCount, List.filter_cons, mutEvent] at m ⊢
        exact m
      · simp [payloads, List.filterMap_cons] at p ⊢
        exact p
      · intro i pd hm
        rcases List.mem_cons.mp hm with hc | hc
        · exact Event.noConfusion hc
        · exact u i pd hc
    | searchPT n => simp [locEvent] at h
    | readFile n => simp [locEvent] at h
    | getPT n => simp [locEvent] at h
    | createPT n => simp [locEvent] at h
    | updatePT n pd => simp [locEvent] at h
    | deletePT n => simp [locEvent] at h

theorem file_prefix_facts (l : List Event) (h : l.all fileEvent = true) :
    mutCount l = 0 ∧ payloads l = [] ∧ ∀ i pd, Event.updatePT i pd ∉ l := by
  induction l with
  | nil => simp [mutCount, payloads]
  | cons a t ih =>
    rw [List.all_cons, Bool.and_eq_true] at h
    obtain ⟨m, p, u⟩ := ih h.2
    cases a with
    | readFile n =>
      refine ⟨?_, ?_, ?_⟩
      · simp [mutCount, List.filter_cons, mutEvent] at m ⊢
        exact m
      · simp [payloads, List.filterMap_cons] at p ⊢
        exact p
      · intro i pd hm
        rcases List.mem_cons.mp hm with hc | hc
        · exact Event.noConfusion hc
        · exact u i pd hc
    | searchPT n => simp [fileEvent] at h
    | searchLoc n => simp [fileEvent] at h
    | getPT n => simp [fileEvent] at h
    | createPT n => simp [fileEvent] at h
    | updatePT n pd => simp [fileEvent] at h
    | deletePT n => simp [fileEvent] at h

theorem mutCount_append (a b : List Event) :
    mutCount (a ++ b) = mutCount a + mutCount b := by
  simp [mutCount, List.filter_append]

theorem payloads_append (a b : List Event) :
    payloads (a ++ b) = payloads a ++ payloads b := by
  simp [payloads, List.filterMap_append]

theorem decisionStep_shape (d : Descriptor) (w : World) (pt : Option Resource)
    (data : PTData) (evs : List Event) :
    ∃ ts,
      (decisionStep d w pt data evs).2.2 = evs ++ ts ∧
      ts.all condEvent = true ∧
      mutCount ts ≤ 1 ∧
      (∀ pd ∈ payloads ts, pd = data) ∧
      (∀ m, (decisionStep d w pt data evs).1 = Outcome.fail m →
        (decisionStep d w pt data evs).2.1 = w) ∧
      (∀ i pd, Event.updatePT i pd ∈ ts →
        pd = data ∧ d.state = "present" ∧
        ∃ p r, pt = some p ∧ findById w.ptables p.id = some r ∧ i = r.id ∧
          ¬(r.layout = d.layout ∨ r.layout = some data.layout) ∧
          (w.updateErr = false →
            decisionStep d w pt data evs =
              (Outcome.ok true (applyUpdate w r.id data).1,
               (applyUpdate w r.id data).2, evs ++ ts))) := by
  cases pt with
  | none =>
    by_cases hst : d.state = "present"
    · by_cases hce : w.createErr
      · have hD : decisionStep d w none data evs =
            (Outcome.fail "Could not create partition table: error", w,
             evs ++ [Event.createPT data]) := by
          simp [decisionStep, hst, hce]
        refine ⟨[Event.createPT data], by rw [hD], by simp [condEvent],
          by simp [mutCount, List.filter_cons, mutEvent],
          by simp [payloads, List.filterMap_cons],
          by intro m hm; rw [hD],
          by intro i pd hm; simp at hm⟩
      · have hD : decisionStep d w none data evs =
            (Outcome.ok true (some (applyCreate w data).1), (applyCreate w data).2,
             evs ++ [Event.createPT data]) := by
          simp [decisionStep, hst, hce]
        refine ⟨[Event.createPT data], by rw [hD], by simp [condEvent],
          by simp [mutCount, List.filter_cons, mutEvent],
          by simp [payloads, List.filterMap_cons],
          by intro m hm; rw [hD] at hm; simp at hm,
          by intro i pd hm; simp at hm⟩
    · have hD : decisionStep d w none data evs = (Outcome.ok false none, w, evs) := by
        simp [decisionStep, hst]
      refine ⟨[], by rw [hD]; simp, by simp,
        by simp [mutCount],
        by simp [payloads],
        by intro m hm; rw [hD] at hm; simp at hm,
        by intro i pd hm; simp at hm⟩
  | some p =>
    by_cases hab : d.state = "absent"
    · by_cases hde : w.deleteErr
      · have hD : decisionStep d w (some p) data evs =
            (Outcome.fail "Could not delete partition table: error", w,
             evs ++ [Event.deletePT p.id]) := by
          simp [decisionStep, hab, hde]
        refine ⟨[Event.deletePT p.id], by rw [hD], by simp [condEvent],
          by simp [mutCount, List.filter_cons, mutEvent],
          by simp [payloads, List.filterMap_cons],
          by intro m hm; rw [hD],
          by intro i pd hm; simp at hm⟩
      · have hD : decisionStep d w (some p) data evs =
            (Outcome.ok true (applyDelete w p.id).1, (applyDelete w p.id).2,
             evs ++ [Event.deletePT p.id]) := by
          simp [decisionStep, hab, hde]
        refine ⟨[Event.deletePT p.id], by rw [hD], by simp [condEvent],
          by simp [mutCount, List.filter_cons, mutEvent],
          by simp [payloads, List.filterMap_cons],
          by intro m hm; rw [hD] at hm; simp at hm,
          by intro i pd hm; simp at hm⟩
    · by_cases hst : d.state = "present"
      · by_cases hge : w.getErr
        · have hD : decisionStep d w (some p) data evs =
              (Outcome.fail "Could not get partition table to update: error", w,
               evs ++ [Event.getPT p.id]) := by
            simp [decisionStep, hab, hst, hge]
          refine ⟨[Event.getPT p.id], by rw [hD], by simp [condEvent],
            by simp [mutCount, List.filter_cons, mutEvent],
            by simp [payloads, List.filterMap_cons],
            by intro m hm; rw [hD],
            by intro i pd hm; simp at hm⟩
        · cases hr : findById w.ptables p.id with
          | none =>
            have hD : decisionStep d w (some p) data evs =
                (Outcome.fail "Could not get partition table to update: error", w,
                 evs ++ [Event.getPT p.id]) := by
              simp [decisionStep, hab, hst, hge, hr]
            refine ⟨[Event.getPT p.id], by rw [hD], by simp [condEvent],
              by simp [mutCount, List.filter_cons, mutEvent],
              by simp [payloads, List.filterMap_cons],
              by intro m hm; rw [hD],
              by intro i pd hm; simp at hm⟩
          | some r =>
            by_cases heq : r.layout = d.layout ∨ r.layout = some data.layout
            · have hD : decisionStep d w (some p) data evs =
                  (Outcome.ok false (some r), w, evs ++ [Event.getPT p.id]) := by
                simp [decisionStep, hab, hst, hge, hr, heq]
              refine ⟨[Event.getPT p.id], by rw [hD], by simp [condEvent],
                by simp [mutCount, List.filter_cons, mutEvent],
                by simp [payloads, List.filterMap_cons],
                by intro m hm; rw [hD] at hm; simp at hm,
                by intro i pd hm; simp at hm⟩
            · by_cases hue : w.updateErr
              · have hD : decisionStep d w (some p) data evs =
                    (Outcome.fail "Could not update partition table: error", w,
                     evs ++ [Event.getPT p.id, Event.updatePT r.id data]) := by
                  simp [decisionStep, hab, hst, hge, hr, heq, hue]
                refine ⟨[Event.getPT p.id, Event.updatePT r.id data], by rw [hD],
                  by simp [condEvent],
                  by simp [mutCount, List.filter_cons, mutEvent],
                  by simp [payloads, List.filterMap_cons],
                  by intro m hm; rw [hD],
                  ?_⟩
                intro i pd hm
                simp at hm
                obtain ⟨hi, hpd⟩ := hm
                subst hi
                subst hpd
                exact ⟨rfl, hst, p, r, rfl, hr, rfl, heq, fun hfalse => absurd hfalse (by simp [hue])⟩
              · have hD : decisionStep d w (some p) data evs =
                    (Outcome.ok true (applyUpdate w r.id data).1,
                     (applyUpdate w r.id data).2,
                     evs ++ [Event.getPT p.id, Event.updatePT r.id data]) := by
                  simp [decisionStep, hab, hst, hge, hr, heq, hue]
                refine ⟨[Event.getPT p.id, Event.updatePT r.id data], by rw [hD],
                  by simp [condEvent],
                  by simp [mutCount, List.filter_cons, mutEvent],
                  by simp [payloads, List.filterMap_cons],
                  by intro m hm; rw [hD] at hm; simp at hm,
                  ?_⟩
                intro i pd hm
                simp at hm
                obtain ⟨hi, hpd⟩ := hm
                subst hi
                subst hpd
                exact ⟨rfl, hst, p, r, rfl, hr, rfl, heq, fun _ => hD⟩
      · have hD : decisionStep d w (some p) data evs =
            (Outcome.ok false (some p), w, evs) := by
          simp [decisionStep, hab, hst]
        refine ⟨[], by rw [hD]; simp, by simp,
          by simp [mutCount],
          by simp [payloads],
          by intro m hm; rw [hD] at hm; simp at hm,
          by intro i pd hm; simp at hm⟩

theorem layoutStep_shape (d : Descriptor) (w : World) (pt : Option Resource)
    (locIds : Option (List Nat)) (evs : List Event) :
    ∃ fs ts,
      (layoutStep d w pt locIds evs).2.2 = evs ++ (fs ++ ts) ∧
      fs.all fileEvent = true ∧ ts.all condEvent = true ∧
      (∀ pd ∈ payloads (fs ++ ts), pd = mkData d locIds (resolvedVal d w)) ∧
      mutCount (fs ++ ts) ≤ 1 ∧
      (∀ m, (layoutStep d w pt locIds evs).1 = Outcome.fail m →
        (layoutStep d w pt locIds evs).2.1 = w) ∧
      (∀ i pd, Event.updatePT i pd ∈ fs ++ ts →
        pd = mkData d locIds (resolvedVal d w) ∧ d.state = "present" ∧
        ∃ p r, pt = some p ∧ findById w.ptables p.id = some r ∧ i = r.id ∧
          ¬(r.layout = d.layout ∨ r.layout = some pd.layout) ∧
          (w.updateErr = false →
            layoutStep d w pt locIds evs =
              (Outcome.ok true (applyUpdate w r.id pd).1, (applyUpdate w r.id pd).2,
               evs ++ (fs ++ ts)))) := by
  cases hl : truthy d.layout with
  | true =>
    cases ht : truthy d.template_file with
    | true =>
      have hL : layoutStep d w pt locIds evs =
          (Outcome.fail "Only one of either layout or template_file must be defined",
           w, evs) := by
        rw [layoutStep, if_neg (by simp [hl]), if_pos (by simp [hl, ht])]
      refine ⟨[], [], by rw [hL]; simp, by simp, by simp,
        by simp [payloads],
        by simp [mutCount],
        by intro m hm; rw [hL],
        by intro i pd hm; simp at hm⟩
    | false =>
      have hL : layoutStep d w pt locIds evs =
          decisionStep d w pt (mkData d locIds (d.layout.getD "")) evs := by
        rw [layoutStep, if_neg (by simp [hl]), if_neg (by simp [ht]), if_pos hl]
      have hrv : resolvedVal d w = d.layout.getD "" := by
        rw [resolvedVal, resolvedLayout, if_pos hl]
      obtain ⟨ts, h1, h2, h3, h4, h5, h6⟩ :=
        decisionStep_shape d w pt (mkData d locIds (d.layout.getD "")) evs
      refine ⟨[], ts, by rw [hL]; simpa using h1, by simp, h2, ?_, by simpa using h3, ?_, ?_⟩
      · intro pd hpd
        simp only [List.nil_append] at hpd
        rw [hrv]
        exact h4 pd hpd
      · intro m hm
        rw [hL] at hm ⊢
        exact h5 m hm
      · intro i pd hm
        simp only [List.nil_append] at hm
        obtain ⟨hpd, hst, p, r, hp, hr, hi, hne, heq⟩ := h6 i pd hm
        subst hpd
        refine ⟨by rw [hrv], hst, p, r, hp, hr, hi, by simpa [mkData] using hne, ?_⟩
        intro hue
        rw [hL]
        simpa using heq hue
  | false =>
    cases ht : truthy d.template_file with
    | false =>
      have hL : layoutStep d w pt locIds evs =
          (Outcome.fail "Either layout or template_file must be defined", w, evs) := by
        rw [layoutStep, if_pos (by simp [hl, ht])]
      refine ⟨[], [], by rw [hL]; simp, by simp, by simp,
        by simp [payloads],
        by simp [mutCount],
        by intro m hm; rw [hL],
        by intro i pd hm; simp at hm⟩
    | true =>
      cases hf : readFileW w (d.template_file.getD "") with
      | none =>
        have hL : layoutStep d w pt locIds evs =
            (Outcome.fail ("Could not open file " ++ d.template_file.getD "" ++ ": error"),
             w, evs ++ [Event.readFile (d.template_file.getD "")]) := by
          rw [layoutStep, if_neg (by simp [ht]), if_neg (by simp [hl]), if_neg (by simp [hl])]
          simp [hf]
        refine ⟨[Event.readFile (d.template_file.getD "")], [], by rw [hL]; simp,
          by simp [fileEvent], by simp,
          by simp [payloads, List.filterMap_cons],
          by simp [mutCount, List.filter_cons, mutEvent],
          by intro m hm; rw [hL],
          by intro i pd hm; simp at hm⟩
      | some c =>
        have hrv : resolvedVal d w = c := by
          rw [resolvedVal, resolvedLayout, if_neg (by simp [hl]), if_pos ht, hf]
          rfl
        have hL : layoutStep d w pt locIds evs =
            decisionStep d w pt (mkData d locIds c)
              (evs ++ [Event.readFile (d.template_file.getD "")]) := by
          rw [layoutStep, if_neg (by simp [ht]), if_neg (by simp [hl]), if_neg (by simp [hl])]
          simp [hf]
        obtain ⟨ts, h1, h2, h3, h4, h5, h6⟩ :=
          decisionStep_shape d w pt (mkData d locIds c)
            (evs ++ [Event.readFile (d.template_file.getD "")])
        refine ⟨[Event.readFile (d.template_file.getD "")], ts, ?_,
          by simp [fileEvent], h2, ?_, ?_, ?_, ?_⟩
        · rw [hL, h1]
          simp
        · intro pd hpd
          have h0 : payloads [Event.readFile (d.template_file.getD "")] = [] := rfl
          rw [payloads_append, h0, List.nil_append] at hpd
          rw [hrv]
          exact h4 pd hpd
        · rw [mutCount_append]
          simpa [mutCount, mutEvent] using h3
        · intro m hm
          rw [hL] at hm ⊢
          exact h5 m hm
        · intro i pd hm
          rcases List.mem_append.mp hm with hc | hc
          · simp at hc
          · obtain ⟨hpd, hst, p, r, hp, hr, hi, hne, heq⟩ := h6 i pd hc
            subst hpd
            refine ⟨by rw [hrv], hst, p, r, hp, hr, hi, by simpa [mkData] using hne, ?_⟩
            intro hue
            rw [hL]
            rw [heq hue]
            simp

theorem ensure_shape (d : Descriptor) (w : World) :
    ∃ ls fs ts,
      ensureTrace d w = Event.searchPT d.name :: (ls ++ (fs ++ ts)) ∧
      ls.all locEvent = true ∧ fs.all fileEvent = true ∧ ts.all condEvent = true ∧
      mutCount (ensureTrace d w) ≤ 1 ∧
      (∀ pd ∈ payloads (ensureTrace d w),
        ∃ li, pd = mkData d li (resolvedVal d w) ∧ (d.locations.isEmpty = true → li = none)) ∧
      (∀ m, ensureOutcome d w = Outcome.fail m → ensureWorld d w = w) ∧
      (∀ i pd, Event.updatePT i pd ∈ ensureTrace d w →
        pd.os_family = d.os_family ∧ pd.layout = resolvedVal d w ∧ d.state = "present" ∧
        ∃ p r, findByName w.ptables d.name = some p ∧ findById w.ptables p.id = some r ∧
          i = r.id ∧ ¬(r.layout = d.layout ∨ r.layout = some pd.layout) ∧
          (w.updateErr = false →
            ensureWorld d w = (applyUpdate w r.id pd).2 ∧
            ensureOutcome d w = Outcome.ok true (applyUpdate w r.id pd).1)) := by
  by_cases hse : w.searchPTErr
  · have hE : ensure d w =
        (Outcome.fail "Could not get partition table: error", w, [Event.searchPT d.name]) := by
      simp [ensure, hse]
    have htr : ensureTrace d w = [Event.searchPT d.name] := by simp [ensureTrace, hE]
    refine ⟨[], [], [], by simp [htr], by simp, by simp, by simp, ?_, ?_, ?_, ?_⟩
    · simp [htr, mutCount, List.filter_cons, mutEvent]
    · intro pd hpd
      rw [htr] at hpd
      simp [payloads] at hpd
    · intro m hm
      simp [ensureWorld, hE]
    · intro i pd hm
      rw [htr] at hm
      simp at hm
  · have hE : ensure d w = locStep d w (findByName w.ptables d.name) [Event.searchPT d.name] := by
      simp [ensure, hse]
    by_cases hemp : d.locations.isEmpty
    · have hE2 : ensure d w =
          layoutStep d w (findByName w.ptables d.name) none [Event.searchPT d.name] := by
        rw [hE, locStep, if_pos hemp]
      obtain ⟨fs, ts, h1, h2, h3, h4, h5, h6, h7⟩ :=
        layoutStep_shape d w (findByName w.ptables d.name) none [Event.searchPT d.name]
      have htr : ensureTrace d w = [Event.searchPT d.name] ++ (fs ++ ts) := by
        rw [ensureTrace, hE2, h1]
      refine ⟨[], fs, ts, by simp [htr], by simp, h2, h3, ?_, ?_, ?_, ?_⟩
      · rw [htr, mutCount_append]
        simpa [mutCount, List.filter_cons, mutEvent] using h5
      · intro pd hpd
        rw [htr, payloads_append] at hpd
        have h0 : payloads [Event.searchPT d.name] = [] := rfl
        rw [h0, List.nil_append] at hpd
        exact ⟨none, h4 pd hpd, fun _ => rfl⟩
      · intro m hm
        rw [ensureOutcome, hE2] at hm
        rw [ensureWorld, hE2]
        exact h6 m hm
      · intro i pd hm
        rw [htr] at hm
        rcases List.mem_append.mp hm with hc | hc
        · simp at hc
        · obtain ⟨hpd2, hst, p, r, hp, hr, hi, hne, heq⟩ := h7 i pd hc
          refine ⟨by rw [hpd2]; rfl, by rw [hpd2]; rfl, hst, p, r, hp, hr, hi, hne, ?_⟩
          intro hue
          obtain he := heq hue
          constructor
          · rw [ensureWorld, hE2, he]
          · rw [ensureOutcome, hE2, he]
    · cases hll : locationLookups w d.locations with
      | mk res levs =>
        have hlev : levs.all locEvent = true := by
          have h0 := locationLookups_evs w d.locations
          rw [hll] at h0
          exact h0
        obtain ⟨hm0, hp0, hu0⟩ := loc_prefix_facts levs hlev
        cases res with
        | error m0 =>
          have hE2 : ensure d w = (Outcome.fail m0, w, [Event.searchPT d.name] ++ levs) := by
            rw [hE, locStep, if_neg hemp]
            simp [hll]
          have htr : ensureTrace d w = [Event.searchPT d.name] ++ levs := by
            simp [ensureTrace, hE2]
          refine ⟨levs, [], [], by simp [htr], hlev, by simp, by simp, ?_, ?_, ?_, ?_⟩
          · rw [htr, mutCount_append, hm0]
            simp [mutCount, List.filter_cons, mutEvent]
          · intro pd hpd
            rw [htr, payloads_append] at hpd
            have h0 : payloads [Event.searchPT d.name] = [] := rfl
            rw [h0, List.nil_append, hp0] at hpd
            simp at hpd
          · intro m hm
            simp [ensureWorld, hE2]
          · intro i pd hm
            rw [htr] at hm
            rcases List.mem_append.mp hm with hc | hc
            · simp at hc
            · exact absurd hc (hu0 i pd)
        | ok is =>
          have hE2 : ensure d w =
              layoutStep d w (findByName w.ptables d.name) (some is)
                ([Event.searchPT d.name] ++ levs) := by
            rw [hE, locStep, if_neg hemp]
            simp [hll]
          obtain ⟨fs, ts, h1, h2, h3, h4, h5, h6, h7⟩ :=
            layoutStep_shape d w (findByName w.ptables d.name) (some is)
              ([Event.searchPT d.name] ++ levs)
          have htr : ensureTrace d w = [Event.searchPT d.name] ++ (levs ++ (fs ++ ts)) := by
            rw [ensureTrace, hE2, h1]
            simp
          refine ⟨levs, fs, ts, by simp [htr], hlev, h2, h3, ?_, ?_, ?_, ?_⟩
          · rw [htr, mutCount_append, mutCount_append, hm0]
            simpa [mutCount, List.filter_cons, mutEvent] using h5
          · intro pd hpd
            rw [htr, payloads_append, payloads_append] at hpd
            have h0 : payloads [Event.searchPT d.name] = [] := rfl
            rw [h0, List.nil_append, hp0, List.nil_append] at hpd
            exact ⟨some is, h4 pd hpd, fun hc => absurd hc hemp⟩
          · intro m hm
            rw [ensureOutcome, hE2] at hm
            rw [ensureWorld, hE2]
            exact h6 m hm
          · intro i pd hm
            rw [htr] at hm
            rcases List.mem_append.mp hm with hc | hc
            · simp at hc
            · rcases List.mem_append.mp hc with hc2 | hc2
              · exact absurd hc2 (hu0 i pd)
              · obtain ⟨hpd2, hst, p, r, hp, hr, hi, hne, heq⟩ := h7 i pd hc2
                refine ⟨by rw [hpd2]; rfl, by rw [hpd2]; rfl, hst, p, r, hp, hr, hi, hne, ?_⟩
                intro hue
                obtain he := heq hue
                constructor
                · rw [ensureWorld, hE2, he]
                · rw [ensureOutcome, hE2, he]

theorem ensure_create_eq (d : Descriptor) (w : World)
    (hse : w.searchPTErr = false) (hle : w.searchLocErr = false)
    (hlocs : ∀ l ∈ d.locations, (findLocationId w l).isSome = true)
    (hv : validLayout d w = true) (hst : d.state = "present")
    (hnone : findByName w.ptables d.name = none) (hce : w.createErr = false) :
    ensure d w =
      (Outcome.ok true (some (applyCreate w (mkData d (optIds d w) (resolvedVal d w))).1),
       (applyCreate w (mkData d (optIds d w) (resolvedVal d w))).2,
       Event.searchPT d.name ::
         (locEvs d ++ (fileEvs d ++ [Event.createPT (mkData d (optIds d w) (resolvedVal d w))]))) := by
  rw [ensure_eq_decision d w hse hle hlocs hv, hnone]
  simp [decisionStep, hst, hce]

theorem ensure_absent_delete_eq (d : Descriptor) (w : World) (p : Resource)
    (hse : w.searchPTErr = false) (hle : w.searchLocErr = false)
    (hlocs : ∀ l ∈ d.locations, (findLocationId w l).isSome = true)
    (hv : validLayout d w = true) (hst : d.state = "absent")
    (hp : findByName w.ptables d.name = some p) (hde : w.deleteErr = false) :
    ensure d w =
      (Outcome.ok true (applyDelete w p.id).1, (applyDelete w p.id).2,
       Event.searchPT d.name :: (locEvs d ++ (fileEvs d ++ [Event.deletePT p.id]))) := by
  rw [ensure_eq_decision d w hse hle hlocs hv, hp]
  simp [decisionStep, hst, hde]

theorem ensure_absent_none_eq (d : Descriptor) (w : World)
    (hse : w.searchPTErr = false) (hle : w.searchLocErr = false)
    (hlocs : ∀ l ∈ d.locations, (findLocationId w l).isSome = true)
    (hv : validLayout d w = true) (hst : d.state = "absent")
    (hnone : findByName w.ptables d.name = none) :
    ensure d w =
      (Outcome.ok false none, w, Event.searchPT d.name :: (locEvs d ++ fileEvs d)) := by
  rw [ensure_eq_decision d w hse hle hlocs hv, hnone]
  have hne : d.state ≠ "present" := by rw [hst]; decide
  simp [decisionStep, hne]

theorem ensure_noop_eq (d : Descriptor) (w : World) (p r : Resource)
    (hse : w.searchPTErr = false) (hle : w.searchLocErr = false)
    (hlocs : ∀ l ∈ d.locations, (findLocationId w l).isSome = true)
    (hv : validLayout d w = true) (hst : d.state = "present")
    (hp : findByName w.ptables d.name = some p) (hge : w.getErr = false)
    (hr : findById w.ptables p.id = some r)
    (heq : r.layout = d.layout ∨ r.layout = some (resolvedVal d w)) :
    ensure d w =
      (Outcome.ok false (some r), w,
       Event.searchPT d.name :: (locEvs d ++ (fileEvs d ++ [Event.getPT p.id]))) := by
  rw [ensure_eq_decision d w hse hle hlocs hv, hp]
  have hab : d.state ≠ "absent" := by rw [hst]; decide
  simp [decisionStep, hab, hst, hge, hr, mkData, heq]

theorem ensure_update_eq (d : Descriptor) (w : World) (p r : Resource)
    (hse : w.searchPTErr = false) (hle : w.searchLocErr = false)
    (hlocs : ∀ l ∈ d.locations, (findLocationId w l).isSome = true)
    (hv : validLayout d w = true) (hst : d.state = "present")
    (hp : findByName w.ptables d.name = some p) (hge : w.getErr = false)
    (hr : findById w.ptables p.id = some r)
    (hne : ¬(r.layout = d.layout ∨ r.layout = some (resolvedVal d w)))
    (hue : w.updateErr = false) :
    ensure d w =
      (Outcome.ok true (applyUpdate w r.id (mkData d (optIds d w) (resolvedVal d w))).1,
       (applyUpdate w r.id (mkData d (optIds d w) (resolvedVal d w))).2,
       Event.searchPT d.name :: (locEvs d ++ (fileEvs d ++
         [Event.getPT p.id, Event.updatePT r.id (mkData d (optIds d w) (resolvedVal d w))]))) := by
  rw [ensure_eq_decision d w hse hle hlocs hv, hp]
  have hab : d.state ≠ "absent" := by rw [hst]; decide
  simp [decisionStep, hab, hst, hge, hr, mkData, hne, hue]

theorem ensure_fallthrough_eq (d : Descriptor) (w : World) (p : Resource)
    (hse : w.searchPTErr = false) (hle : w.searchLocErr = false)
    (hlocs : ∀ l ∈ d.locations, (findLocationId w l).isSome = true)
    (hv : validLayout d w = true)
    (hst1 : d.state ≠ "present") (hst2 : d.state ≠ "absent")
    (hp : findByName w.ptables d.name = some p) :
    ensure d w =
      (Outcome.ok false (some p), w, Event.searchPT d.name :: (locEvs d ++ fileEvs d)) := by
  rw [ensure_eq_decision d w hse hle hlocs hv, hp]
  simp [decisionStep, hst1, hst2]

theorem ensure_invalid_eq (d : Descriptor) (w : World)
    (hse : w.searchPTErr = false) (hle : w.searchLocErr = false)
    (hlocs : ∀ l ∈ d.locations, (findLocationId w l).isSome = true)
    (hvv : truthy d.layout = truthy d.template_file) :
    ensure d w =
      (Outcome.fail (if truthy d.layout then
          "Only one of either layout or template_file must be defined"
        else "Either layout or template_file must be defined"),
       w, Event.searchPT d.name :: locEvs d) := by
  rw [ensure, if_neg (by simp [hse])]
  by_cases hemp : d.locations.isEmpty
  · rw [locStep, if_pos hemp]
    have h2 : locEvs d = [] := by
      rw [locEvs, List.isEmpty_iff.mp hemp]
      rfl
    rw [h2]
    cases hl : truthy d.layout with
    | true =>
      rw [layoutStep, if_neg (by simp [hl]), if_pos (by simp [hl, ← hvv])]
      simp [hl]
    | false =>
      rw [layoutStep, if_pos (by simp [hl, ← hvv])]
      simp [hl]
  · rw [locStep, if_neg hemp]
    simp only [locationLookups_ok w d.locations hle hlocs]
    cases hl : truthy d.layout with
    | true =>
      rw [layoutStep, if_neg (by simp [hl]), if_pos (by simp [hl, ← hvv])]
      simp [hl, locEvs]
    | false =>
      rw [layoutStep, if_pos (by simp [hl, ← hvv])]
      simp [hl, locEvs]

theorem ensure_fileMiss_eq (d : Descriptor) (w : World)
    (hse : w.searchPTErr = false) (hle : w.searchLocErr = false)
    (hlocs : ∀ l ∈ d.locations, (findLocationId w l).isSome = true)
    (hl : truthy d.layout = false) (ht : truthy d.template_file = true)
    (hf : readFileW w (d.template_file.getD "") = none) :
    ensure d w =
      (Outcome.fail ("Could not open file " ++ d.template_file.getD "" ++ ": error"), w,
       Event.searchPT d.name :: (locEvs d ++ [Event.readFile (d.template_file.getD "")])) := by
  rw [ensure, if_neg (by simp [hse])]
  by_cases hemp : d.locations.isEmpty
  · rw [locStep, if_pos hemp]
    have h2 : locEvs d = [] := by
      rw [locEvs, List.isEmpty_iff.mp hemp]
      rfl
    rw [h2]
    rw [layoutStep, if_neg (by simp [ht]), if_neg (by simp [hl]), if_neg (by simp [hl])]
    simp [hf]
  · rw [locStep, if_neg hemp]
    simp only [locationLookups_ok w d.locations hle hlocs]
    rw [layoutStep, if_neg (by simp [ht]), if_neg (by simp [hl]), if_neg (by simp [hl])]
    simp [hf, locEvs]

theorem ensure_locMiss_eq (d : Descriptor) (w : World) (l₀ : String)
    (hse : w.searchPTErr = false) (hle : w.searchLocErr = false)
    (hm : firstMiss w d.locations = some l₀) :
    ∃ evs, ensure d w = (Outcome.fail ("Could not find Location " ++ l₀), w,
      Event.searchPT d.name :: evs) ∧ evs.all locEvent = true := by
  obtain ⟨evs, he, ha⟩ := locationLookups_miss w d.locations l₀ hle hm
  have hemp : ¬ d.locations.isEmpty = true := by
    cases hls : d.locations with
    | nil =>
      rw [hls] at hm
      simp [firstMiss] at hm
    | cons a t => simp [hls]
  refine ⟨evs, ?_, ha⟩
  rw [ensure, if_neg (by simp [hse]), locStep, if_neg hemp]
  simp [he]

theorem mutEvent_false_of_loc (e : Event) (h : locEvent e = true) : mutEvent e = false := by
  cases e with
  | searchPT n => rfl
  | searchLoc n => rfl
  | readFile n => rfl
  | getPT n => rfl
  | createPT pd => exact absurd h (by simp [locEvent])
  | updatePT i pd => exact absurd h (by simp [locEvent])
  | deletePT i => exact absurd h (by simp [locEvent])

theorem condEvent_false_of_loc (e : Event) (h : locEvent e = true) : condEvent e = false := by
  cases e with
  | searchPT n => rfl
  | searchLoc n => rfl
  | readFile n => rfl
  | getPT n => exact absurd h (by simp [locEvent])
  | createPT pd => exact absurd h (by simp [locEvent])
  | updatePT i pd => exact absurd h (by simp [locEvent])
  | deletePT i => exact absurd h (by simp [locEvent])

theorem locEvs_all (d : Descriptor) : (locEvs d).all locEvent = true := by
  rw [locEvs]
  induction d.locations with
  | nil => rfl
  | cons a t ih => simp [locEvent, ih]

theorem fileEvs_all (d : Descriptor) : (fileEvs d).all fileEvent = true := by
  rw [fileEvs]
  by_cases h : truthy d.layout
  · rw [if_pos h]
    rfl
  · rw [if_neg h]
    rfl

theorem ensure_invalid_general (d : Descriptor) (w : World)
    (hvv : truthy d.layout = truthy d.template_file) :
    ∃ m evs, ensure d w = (Outcome.fail m, w, Event.searchPT d.name :: evs) ∧
      evs.all locEvent = true ∧
      (w.searchPTErr = false → w.searchLocErr = false →
        firstMiss w d.locations = none →
        m = (if truthy d.layout then
            "Only one of either layout or template_file must be defined"
          else "Either layout or template_file must be defined")) := by
  by_cases hse : w.searchPTErr
  · refine ⟨"Could not get partition table: error", [], by simp [ensure, hse], by simp, ?_⟩
    intro h1 _ _
    rw [h1] at hse
    exact Bool.noConfusion hse
  · by_cases hemp : d.locations.isEmpty
    · have hE : ensure d w =
          layoutStep d w (findByName w.ptables d.name) none [Event.searchPT d.name] := by
        rw [ensure, if_neg (by simp [hse]), locStep, if_pos hemp]
      cases hl : truthy d.layout with
      | true =>
        refine ⟨"Only one of either layout or template_file must be defined", [], ?_,
          by simp, by intro _ _ _; simp [hl]⟩
        rw [hE, layoutStep, if_neg (by simp [hl]), if_pos (by simp [hl, ← hvv])]
      | false =>
        refine ⟨"Either layout or template_file must be defined", [], ?_,
          by simp, by intro _ _ _; simp [hl]⟩
        rw [hE, layoutStep, if_pos (by simp [hl, ← hvv])]
    · cases hll : locationLookups w d.locations with
      | mk res levs =>
        have hlev : levs.all locEvent = true := by
          have h0 := locationLookups_evs w d.locations
          rw [hll] at h0
          exact h0
        cases res with
        | error m0 =>
          refine ⟨m0, levs, ?_, hlev, ?_⟩
          · rw [ensure, if_neg (by simp [hse]), locStep, if_neg hemp]
            simp [hll]
          · intro _ h2 h3
            have hlocs := (firstMiss_none_iff w d.locations).mp h3
            rw [locationLookups_ok w d.locations h2 hlocs] at hll
            have := congrArg Prod.fst hll
            simp at this
        | ok is =>
          have hE : ensure d w =
              layoutStep d w (findByName w.ptables d.name) (some is)
                ([Event.searchPT d.name] ++ levs) := by
            rw [ensure, if_neg (by simp [hse]), locStep, if_neg hemp]
            simp [hll]
          cases hl : truthy d.layout with
          | true =>
            refine ⟨"Only one of either layout or template_file must be defined", levs, ?_,
              hlev, by intro _ _ _; simp [hl]⟩
            rw [hE, layoutStep, if_neg (by simp [hl]), if_pos (by simp [hl, ← hvv])]
            rfl
          | false =>
            refine ⟨"Either layout or template_file must be defined", levs, ?_,
              hlev, by intro _ _ _; simp [hl]⟩
            rw [hE, layoutStep, if_pos (by simp [hl, ← hvv])]
            rfl

theorem ensure_none_nop_eq (d : Descriptor) (w : World)
    (hse : w.searchPTErr = false) (hle : w.searchLocErr = false)
    (hlocs : ∀ l ∈ d.locations, (findLocationId w l).isSome = true)
    (hv : validLayout d w = true) (hst : d.state ≠ "present")
    (hnone : findByName w.ptables d.name = none) :
    ensure d w =
      (Outcome.ok false none, w, Event.searchPT d.name :: (locEvs d ++ fileEvs d)) := by
  rw [ensure_eq_decision d w hse hle hlocs hv, hnone]
  simp [decisionStep, hst]

theorem validLayout_cases (d : Descriptor) (w : World)
    (hnv : ¬ validLayout d w = true) :
    truthy d.layout = truthy d.template_file ∨
    (truthy d.layout = false ∧ truthy d.template_file = true ∧
      readFileW w (d.template_file.getD "") = none) := by
  by_cases hvv : truthy d.layout = truthy d.template_file
  · exact Or.inl hvv
  · right
    cases hl : truthy d.layout with
    | true =>
      exfalso
      apply hnv
      rw [validLayout, hl]
      cases hot : d.layout with
      | none =>
        rw [hot] at hl
        simp [truthy] at hl
      | some s =>
        have : resolvedLayout d w = some s := by
          rw [resolvedLayout]
          rw [hot] at hl ⊢
          rw [if_pos hl]
        rw [this]
        cases ht : truthy d.template_file with
        | true =>
          exfalso
          exact hvv (hl.trans ht.symm)
        | false => simp
    | false =>
      cases ht : truthy d.template_file with
      | true =>
        refine ⟨rfl, rfl, ?_⟩
        cases hf : readFileW w (d.template_file.getD "") with
        | none => rfl
        | some c =>
          exfalso
          apply hnv
          rw [validLayout, hl, ht]
          have : resolvedLayout d w = some c := by
            rw [resolvedLayout, if_neg (by simp [hl]), if_pos ht, hf]
          rw [this]
          simp
      | false =>
        exfalso
        exact hvv (hl.trans ht.symm)

/-- C3 (corrected). Re-running `ensure` with the same descriptor against
the world a successful run left behind always reports `changed = false`
and leaves that world untouched; and whenever the first successful run of
a Present descriptor actually mutated the store (`changed = true`), the
record stored under the descriptor's name afterwards carries exactly the
resolved desired layout.  (The unamended claim also demanded the final
layout equal the resolved layout after *no-op* first runs; the
counterexample `C3_counterexample` shows the run that matches a stored
record with an absent layout against the raw `layout` parameter keeps the
stored record unchanged, so that stronger statement is false.) -/
theorem C3_amended (d : Descriptor) (w : World) (c : Bool) (res : Option Resource)
    (w2 : World) (tr : List Event)
    (hwf : WF w) (hne : NoClientErr w)
    (h : ensure d w = (Outcome.ok c res, w2, tr)) :
    (∃ res2 tr2, ensure d w2 = (Outcome.ok false res2, w2, tr2)) ∧
    (c = true → d.state = "present" →
      ∃ rf, findByName w2.ptables d.name = some rf ∧
        rf.layout = some (resolvedVal d w)) := by
  obtain ⟨hse, hle, hge, hce, hue, hde⟩ := hne
  by_cases hmiss : firstMiss w d.locations = none
  case neg =>
    obtain ⟨l₀, hl₀⟩ := Option.ne_none_iff_exists.mp hmiss
    obtain ⟨evs, he, _⟩ := ensure_locMiss_eq d w l₀ hse hle hl₀.symm
    rw [he] at h
    exact absurd (congrArg Prod.fst h) (by simp)
  case pos =>
  have hlocs := (firstMiss_none_iff w d.locations).mp hmiss
  by_cases hv : validLayout d w = true
  case neg =>
    rcases validLayout_cases d w hv with hvv | ⟨hl, ht, hf⟩
    · rw [ensure_invalid_eq d w hse hle hlocs hvv] at h
      exact absurd (congrArg Prod.fst h) (by simp)
    · rw [ensure_fileMiss_eq d w hse hle hlocs hl ht hf] at h
      exact absurd (congrArg Prod.fst h) (by simp)
  case pos =>
  cases hfind : findByName w.ptables d.name with
  | none =>
    by_cases hst : d.state = "present"
    · -- first run creates the resource
      rw [ensure_create_eq d w hse hle hlocs hv hst hfind hce] at h
      simp only [Prod.mk.injEq, Outcome.ok.injEq] at h
      obtain ⟨⟨hc, hres⟩, hw2, htr⟩ := h
      subst hw2
      constructor
      · -- the second run is a no-op on the created record
        have hfind2 : findByName
            (applyCreate w (mkData d (optIds d w) (resolvedVal d w))).2.ptables d.name =
            some (applyCreate w (mkData d (optIds d w) (resolvedVal d w))).1 := by
          show findByName
            (w.ptables ++ [(applyCreate w (mkData d (optIds d w) (resolvedVal d w))).1])
            d.name = _
          rw [findByName_append w.ptables
            [(applyCreate w (mkData d (optIds d w) (resolvedVal d w))).1] d.name hfind,
            findByName, if_pos (show
              (applyCreate w (mkData d (optIds d w) (resolvedVal d w))).1.name = d.name
              from rfl)]
        have hid2 : findById
            (applyCreate w (mkData d (optIds d w) (resolvedVal d w))).2.ptables
            (applyCreate w (mkData d (optIds d w) (resolvedVal d w))).1.id =
            some (applyCreate w (mkData d (optIds d w) (resolvedVal d w))).1 := by
          have h0 : findById w.ptables w.nextId = none := by
            apply findById_none_of
            intro r hr
            exact Nat.ne_of_lt (hwf.2.2 r hr)
          show findById
            (w.ptables ++ [(applyCreate w (mkData d (optIds d w) (resolvedVal d w))).1])
            w.nextId = _
          rw [findById_append w.ptables
            [(applyCreate w (mkData d (optIds d w) (resolvedVal d w))).1] w.nextId h0,
            findById, if_pos (show
              (applyCreate w (mkData d (optIds d w) (resolvedVal d w))).1.id = w.nextId
              from rfl)]
        have he2 := ensure_noop_eq d
          (applyCreate w (mkData d (optIds d w) (resolvedVal d w))).2
          (applyCreate w (mkData d (optIds d w) (resolvedVal d w))).1
          (applyCreate w (mkData d (optIds d w) (resolvedVal d w))).1
          hse hle hlocs hv hst hfind2 hge hid2 (Or.inr rfl)
        exact ⟨_, _, he2⟩
      · intro _ _
        refine ⟨(applyCreate w (mkData d (optIds d w) (resolvedVal d w))).1, ?_, rfl⟩
        show findByName
          (w.ptables ++ [(applyCreate w (mkData d (optIds d w) (resolvedVal d w))).1])
          d.name = _
        rw [findByName_append w.ptables
          [(applyCreate w (mkData d (optIds d w) (resolvedVal d w))).1] d.name hfind,
          findByName, if_pos (show
            (applyCreate w (mkData d (optIds d w) (resolvedVal d w))).1.name = d.name
            from rfl)]
    · -- no resource and not Present: the run was already a no-op
      rw [ensure_none_nop_eq d w hse hle hlocs hv hst hfind] at h
      simp only [Prod.mk.injEq, Outcome.ok.injEq] at h
      obtain ⟨⟨hc, hres⟩, hw2, htr⟩ := h
      subst hw2
      refine ⟨⟨none, _, ensure_none_nop_eq d w hse hle hlocs hv hst hfind⟩, ?_⟩
      intro hc2 _
      rw [← hc] at hc2
      exact Bool.noConfusion hc2
  | some p =>
    have hpid : findById w.ptables p.id = some p := findById_det w.ptables p d.name hwf.1 hfind
    by_cases hab : d.state = "absent"
    · -- first run deletes the resource
      rw [ensure_absent_delete_eq d w p hse hle hlocs hv hab hfind hde] at h
      simp only [Prod.mk.injEq, Outcome.ok.injEq] at h
      obtain ⟨⟨hc, hres⟩, hw2, htr⟩ := h
      subst hw2
      constructor
      · have hfind2 : findByName (applyDelete w p.id).2.ptables d.name = none :=
          findByName_remove w.ptables d.name p hfind hwf.2.1 hwf.1
        have hst2 : d.state ≠ "present" := by rw [hab]; decide
        exact ⟨none, _, ensure_none_nop_eq d (applyDelete w p.id).2 hse hle hlocs hv hst2 hfind2⟩
      · intro _ hpres
        exact absurd (hab ▸ hpres) (by decide)
    · by_cases hst : d.state = "present"
      · by_cases heq : p.layout = d.layout ∨ p.layout = some (resolvedVal d w)
        · -- first run is a no-op
          rw [ensure_noop_eq d w p p hse hle hlocs hv hst hfind hge hpid heq] at h
          simp only [Prod.mk.injEq, Outcome.ok.injEq] at h
          obtain ⟨⟨hc, hres⟩, hw2, htr⟩ := h
          subst hw2
          refine ⟨⟨some p, _, ensure_noop_eq d w p p hse hle hlocs hv hst hfind hge hpid heq⟩, ?_⟩
          intro hc2 _
          rw [← hc] at hc2
          exact Bool.noConfusion hc2
        · -- first run updates the resource
          rw [ensure_update_eq d w p p hse hle hlocs hv hst hfind hge hpid heq hue] at h
          simp only [Prod.mk.injEq, Outcome.ok.injEq] at h
          obtain ⟨⟨hc, hres⟩, hw2, htr⟩ := h
          subst hw2
          have hup : applyUpdate w p.id (mkData d (optIds d w) (resolvedVal d w)) =
              (some (applyUpdateRec p (mkData d (optIds d w) (resolvedVal d w))),
               { w with
                 ptables := replaceById w.ptables p.id
                   (applyUpdateRec p (mkData d (optIds d w) (resolvedVal d w))) }) := by
            rw [applyUpdate, hpid]
          constructor
          · rw [hup]
            have hfind2 : findByName
                (replaceById w.ptables p.id
                  (applyUpdateRec p (mkData d (optIds d w) (resolvedVal d w)))) d.name =
                some (applyUpdateRec p (mkData d (optIds d w) (resolvedVal d w))) :=
              findByName_replace w.ptables d.name p
                (applyUpdateRec p (mkData d (optIds d w) (resolvedVal d w)))
                hfind hwf.1 rfl
            have hid2 : findById
                (replaceById w.ptables p.id
                  (applyUpdateRec p (mkData d (optIds d w) (resolvedVal d w))))
                (applyUpdateRec p (mkData d (optIds d w) (resolvedVal d w))).id =
                some (applyUpdateRec p (mkData d (optIds d w) (resolvedVal d w))) :=
              findById_replace w.ptables p.id p
                (applyUpdateRec p (mkData d (optIds d w) (resolvedVal d w))) hpid rfl
            have he2 := ensure_noop_eq d
              { w with
                ptables := replaceById w.ptables p.id
                  (applyUpdateRec p (mkData d (optIds d w) (resolvedVal d w))) }
              (applyUpdateRec p (mkData d (optIds d w) (resolvedVal d w)))
              (applyUpdateRec p (mkData d (optIds d w) (resolvedVal d w)))
              hse hle hlocs hv hst hfind2 hge hid2 (Or.inr rfl)
            exact ⟨_, _, he2⟩
          · intro _ _
            refine ⟨applyUpdateRec p (mkData d (optIds d w) (resolvedVal d w)), ?_, rfl⟩
            rw [hup]
            exact findByName_replace w.ptables d.name p
              (applyUpdateRec p (mkData d (optIds d w) (resolvedVal d w)))
              hfind hwf.1 rfl
      · -- a state that is neither present nor absent: fall-through no-op
        rw [ensure_fallthrough_eq d w p hse hle hlocs hv hst hab hfind] at h
        simp only [Prod.mk.injEq, Outcome.ok.injEq] at h
        obtain ⟨⟨hc, hres⟩, hw2, htr⟩ := h
        subst hw2
        refine ⟨⟨some p, _, ensure_fallthrough_eq d w p hse hle hlocs hv hst hab hfind⟩, ?_⟩
        intro hc2 _
        rw [← hc] at hc2
        exact Bool.noConfusion hc2

/-- C1 (counterexample). A descriptor supplying both layout and
template_file does fail validation, but the search-by-name call has
already been issued when it does: the trace of the failing run is
non-empty, refuting the claim that no remote client call is made before
the validation failure. -/
theorem C1_counterexample :
    ensure dX1 {} = (Outcome.fail "Only one of either layout or template_file must be defined",
      {}, [Event.searchPT "pt1"]) ∧
    Event.searchPT "pt1" ∈ ensureTrace dX1 {} := by
  exact ⟨by decide, by decide⟩

/-- C1 (corrected). For every descriptor in which both or neither of
layout / template_file are (truthily) supplied, reconciliation fails,
the remote store is left untouched, and no get, create, update or delete
call is issued before the failure; when the search and the location
lookups succeed the failure carries the descriptive validation message.
However the search by name (and any location lookups) ARE issued before
the validation check — the original claim's "no remote client call" is
refuted by `C1_counterexample`. -/
theorem C1_amended (d : Descriptor) (w : World)
    (hvv : truthy d.layout = truthy d.template_file) :
    isFail (ensureOutcome d w) = true ∧
    ensureWorld d w = w ∧
    (∀ e ∈ ensureTrace d w, condEvent e = false) ∧
    (w.searchPTErr = false → w.searchLocErr = false →
      firstMiss w d.locations = none →
      ensureOutcome d w = Outcome.fail (if truthy d.layout then
          "Only one of either layout or template_file must be defined"
        else "Either layout or template_file must be defined")) := by
  obtain ⟨m, evs, he, ha, hmsg⟩ := ensure_invalid_general d w hvv
  refine ⟨by rw [ensureOutcome, he]; rfl, by rw [ensureWorld, he], ?_, ?_⟩
  · intro e hee
    rw [ensureTrace, he] at hee
    rcases List.mem_cons.mp hee with rfl | hee2
    · rfl
    · exact condEvent_false_of_loc e (List.all_eq_true.mp ha e hee2)
  · intro h1 h2 h3
    rw [ensureOutcome, he, hmsg h1 h2 h3]

/-- C1 witness: the amended claim evaluated on a concrete descriptor
supplying neither layout nor template_file, against a store holding a
matching record that stays untouched. -/
theorem C1_witness :
    isFail (ensureOutcome dW1 wW1) = true ∧
    ensureWorld dW1 wW1 = wW1 ∧
    ensureOutcome dW1 wW1 = Outcome.fail "Either layout or template_file must be defined" := by
  have h := C1_amended dW1 wW1 rfl
  exact ⟨h.1, h.2.1, (h.2.2.2 rfl rfl rfl).trans (by decide)⟩

/-- C2 (counterexample). With layout supplied through a template file
resolving to "zfs" and an existing record whose layout key is absent,
the run fetches the record and returns changed = false with no update
call, even though the record's layout (none) differs from the resolved
desired layout (some "zfs"): the line
`ptable.get('layout') == layout` compares against the raw, unsupplied
layout parameter (None == None), refuting the claimed
"changed = false iff stored layout equals the resolved layout". -/
theorem C2_counterexample :
    ensure dX2 wX2 = (Outcome.ok false (some rX2), wX2,
      [Event.searchPT "p2", Event.readFile "f2", Event.getPT 2]) ∧
    resolvedLayout dX2 wX2 = some "zfs" ∧
    rX2.layout = none := by
  exact ⟨by decide, by decide, rfl⟩

/-- C2 (corrected). For every valid Present descriptor whose name finds
an existing record, the run fetches the full record by id and is a no-op
(changed = false, no update) iff the fetched record's layout equals the
raw layout parameter OR the resolved desired layout; otherwise it issues
exactly one update by id with the new data and returns changed = true.
(The original claim compared against the resolved layout only; the raw
parameter disjunct is what the source's line 156 adds, see
`C2_counterexample`.) -/
theorem C2_amended (d : Descriptor) (w : World) (p r : Resource)
    (hne : NoClientErr w)
    (hlocs : ∀ l ∈ d.locations, (findLocationId w l).isSome = true)
    (hv : validLayout d w = true) (hst : d.state = "present")
    (hp : findByName w.ptables d.name = some p)
    (hr : findById w.ptables p.id = some r) :
    ((r.layout = d.layout ∨ r.layout = some (resolvedVal d w)) →
      ensure d w = (Outcome.ok false (some r), w,
        Event.searchPT d.name :: (locEvs d ++ (fileEvs d ++ [Event.getPT p.id])))) ∧
    (¬(r.layout = d.layout ∨ r.layout = some (resolvedVal d w)) →
      ensure d w =
        (Outcome.ok true (applyUpdate w r.id (mkData d (optIds d w) (resolvedVal d w))).1,
         (applyUpdate w r.id (mkData d (optIds d w) (resolvedVal d w))).2,
         Event.searchPT d.name :: (locEvs d ++ (fileEvs d ++
           [Event.getPT p.id,
            Event.updatePT r.id (mkData d (optIds d w) (resolvedVal d w))])))) := by
  obtain ⟨hse, hle, hge, hce, hue, hde⟩ := hne
  exact ⟨fun heq => ensure_noop_eq d w p r hse hle hlocs hv hst hp hge hr heq,
         fun hneq => ensure_update_eq d w p r hse hle hlocs hv hst hp hge hr hneq hue⟩

/-- C2 witness: the no-op direction evaluated on a concrete store whose
record already carries the desired literal layout. -/
theorem C2_witness :
    ensure dW2 wW2 = (Outcome.ok false (some rW2), wW2,
      Event.searchPT "w2" :: (locEvs dW2 ++ (fileEvs dW2 ++ [Event.getPT 6]))) := by
  exact (C2_amended dW2 wW2 rW2 rW2 (by decide) (by decide) (by decide) rfl
    (by decide) (by decide)).1 (by decide)

/-- C3 (counterexample). A successful Present run (changed = false)
after which the stored layout still differs from the resolved desired
layout: template-file layout "thin" against a record with no layout
value is treated as already equal (None == None against the raw
parameter), so the final layout after the runs is not the resolved
desired layout. -/
theorem C3_counterexample :
    ensure dX3 wX3 = (Outcome.ok false (some rX3), wX3,
      [Event.searchPT "q", Event.readFile "tm", Event.getPT 7]) ∧
    resolvedVal dX3 wX3 = "thin" ∧
    findByName (ensureWorld dX3 wX3).ptables "q" = some rX3 ∧
    rX3.layout = none := by
  exact ⟨by decide, by decide, by decide, rfl⟩

/-- C3 witness: the amended idempotence claim evaluated on a concrete
creating run. -/
theorem C3_witness :
    ∃ rf, findByName wW3after.ptables "n3" = some rf ∧ rf.layout = some "L3" := by
  have h := C3_amended dW3 ({} : World) true
    (some { id := 1, name := "n3", layout := some "L3", os_family := none, location_ids := [] })
    wW3after
    [Event.searchPT "n3",
     Event.createPT { name := "n3", location_ids := none, layout := "L3", os_family := none }]
    (by decide) (by decide) (by decide)
  obtain ⟨rf, h3, h4⟩ := h.2 rfl rfl
  exact ⟨rf, h3, by rw [h4]; decide⟩

/-- C4 (confirmed). For every valid Present descriptor with no existing
match, the run issues exactly one create whose payload is the name, the
resolved layout, the os-family parameter and the resolved location ids
(the latter key present exactly when locations were supplied), returns
changed = true with the server's create response as the result, and that
result's name is the descriptor's name. -/
theorem C4_theorem (d : Descriptor) (w : World)
    (hne : NoClientErr w)
    (hlocs : ∀ l ∈ d.locations, (findLocationId w l).isSome = true)
    (hv : validLayout d w = true) (hst : d.state = "present")
    (hnone : findByName w.ptables d.name = none) :
    ensure d w =
      (Outcome.ok true (some (applyCreate w (mkData d (optIds d w) (resolvedVal d w))).1),
       (applyCreate w (mkData d (optIds d w) (resolvedVal d w))).2,
       Event.searchPT d.name :: (locEvs d ++ (fileEvs d ++
         [Event.createPT (mkData d (optIds d w) (resolvedVal d w))]))) ∧
    payloads (ensureTrace d w) = [mkData d (optIds d w) (resolvedVal d w)] ∧
    (applyCreate w (mkData d (optIds d w) (resolvedVal d w))).1.name = d.name := by
  obtain ⟨hse, hle, hge, hce, hue, hde⟩ := hne
  have hE := ensure_create_eq d w hse hle hlocs hv hst hnone hce
  refine ⟨hE, ?_, rfl⟩
  rw [ensureTrace, hE]
  show payloads ([Event.searchPT d.name] ++ (locEvs d ++ (fileEvs d ++
    [Event.createPT (mkData d (optIds d w) (resolvedVal d w))]))) = _
  rw [payloads_append, payloads_append, payloads_append,
    (loc_prefix_facts (locEvs d) (locEvs_all d)).2.1,
    (file_prefix_facts (fileEvs d) (fileEvs_all d)).2.1]
  rfl

/-- C4 witness: the spec's FreeBSD example — no existing match, one
create with the stated data, changed = true, result.name = "FreeBSD". -/
theorem C4_witness :
    ensureOutcome dW4 {} = Outcome.ok true (some
      { id := 1,
        name := "FreeBSD",
        layout := some "zfs on root",
        os_family := some "FreeBSD",
        location_ids := [] }) ∧
    payloads (ensureTrace dW4 {}) =
      [(⟨"FreeBSD", none, "zfs on root", some "FreeBSD"⟩ : PTData)] := by
  have h := C4_theorem dW4 {} (by decide) (by decide) (by decide) rfl (by decide)
  constructor
  · rw [ensureOutcome, h.1]
    decide
  · rw [h.2.1]
    decide

/-- C5 (counterexample). An Absent descriptor whose name matches an
existing record but which supplies neither layout nor template_file does
NOT delete the record: the layout validation (which the source runs even
for absent state) fails first, so the run fails and issues no mutating
call, refuting the unconditional "if found, delete and changed = true". -/
theorem C5_counterexample :
    ensure dX5 wX5 = (Outcome.fail "Either layout or template_file must be defined", wX5,
      [Event.searchPT "p5"]) ∧
    mutCount (ensureTrace dX5 wX5) = 0 := by
  exact ⟨by decide, by decide⟩

/-- C5 (corrected). For every VALID Absent descriptor (exactly one
layout source supplied and resolvable, locations resolvable, healthy
client): if a record is found by name it is deleted by id with
changed = true; if none is found the run is a no-op returning
changed = false and result None.  (The original claim omitted validity;
`C5_counterexample` shows an invalid Absent descriptor fails validation
instead of deleting.) -/
theorem C5_amended (d : Descriptor) (w : World)
    (hne : NoClientErr w)
    (hlocs : ∀ l ∈ d.locations, (findLocationId w l).isSome = true)
    (hv : validLayout d w = true) (hst : d.state = "absent") :
    (∀ p, findByName w.ptables d.name = some p →
      ensure d w = (Outcome.ok true (applyDelete w p.id).1, (applyDelete w p.id).2,
        Event.searchPT d.name :: (locEvs d ++ (fileEvs d ++ [Event.deletePT p.id])))) ∧
    (findByName w.ptables d.name = none →
      ensure d w = (Outcome.ok false none, w,
        Event.searchPT d.name :: (locEvs d ++ fileEvs d))) := by
  obtain ⟨hse, hle, hge, hce, hue, hde⟩ := hne
  exact ⟨fun p hp => ensure_absent_delete_eq d w p hse hle hlocs hv hst hp hde,
         fun hn => ensure_absent_none_eq d w hse hle hlocs hv hst hn⟩

/-- C5 witness: the delete direction evaluated on a concrete store. -/
theorem C5_witness :
    ensure dW5 wW5 = (Outcome.ok true (applyDelete wW5 4).1, (applyDelete wW5 4).2,
      Event.searchPT "gone" :: (locEvs dW5 ++ (fileEvs dW5 ++ [Event.deletePT 4]))) := by
  exact (C5_amended dW5 wW5 (by decide) (by decide) (by decide) rfl).1 rW5 (by decide)

/-- C6 (counterexample). A concrete run whose first issued call is the
search by name, with the location lookup second and the template-file
read third — refuting the claimed order "resolve layout first, then
location lookups, then search". -/
theorem C6_counterexample :
    ensureTrace dX6 wX6 = [Event.searchPT "n6", Event.searchLoc "l6", Event.readFile "f6",
      Event.createPT ⟨"n6", some [3], "LL", none⟩] ∧
    (ensureTrace dX6 wX6).head? = some (Event.searchPT "n6") := by
  exact ⟨by decide, by decide⟩

/-- C6 (corrected). Every run's trace has the fixed shape: the search by
name FIRST, then the location lookups, then the template-file read, and
only afterwards the conditional fetch/create/update/delete tail.  (The
claim put layout resolution first and the search third;
`C6_counterexample` shows the actual order.) -/
theorem C6_amended (d : Descriptor) (w : World) :
    ∃ ls fs ts,
      ensureTrace d w = Event.searchPT d.name :: (ls ++ (fs ++ ts)) ∧
      ls.all locEvent = true ∧ fs.all fileEvent = true ∧ ts.all condEvent = true := by
  obtain ⟨ls, fs, ts, h1, h2, h3, h4, _⟩ := ensure_shape d w
  exact ⟨ls, fs, ts, h1, h2, h3, h4⟩

/-- C7 (confirmed). When the client lookups respond and some location
name has no match, the run fails with a message naming the FIRST
unresolvable location, the store is untouched, and no create, update or
delete call was issued. -/
theorem C7_theorem (d : Descriptor) (w : World) (l₀ : String)
    (h1 : w.searchPTErr = false) (h2 : w.searchLocErr = false)
    (hm : firstMiss w d.locations = some l₀) :
    ensureOutcome d w = Outcome.fail ("Could not find Location " ++ l₀) ∧
    ensureWorld d w = w ∧
    mutCount (ensureTrace d w) = 0 ∧
    (∀ e ∈ ensureTrace d w, mutEvent e = false) := by
  obtain ⟨evs, he, ha⟩ := ensure_locMiss_eq d w l₀ h1 h2 hm
  obtain ⟨hm0, _, _⟩ := loc_prefix_facts evs ha
  refine ⟨by rw [ensureOutcome, he], by rw [ensureWorld, he], ?_, ?_⟩
  · rw [ensureTrace, he]
    show mutCount ([Event.searchPT d.name] ++ evs) = 0
    rw [mutCount_append, hm0]
    rfl
  · intro e hee
    rw [ensureTrace, he] at hee
    rcases List.mem_cons.mp hee with rfl | hee2
    · rfl
    · exact mutEvent_false_of_loc e (List.all_eq_true.mp ha e hee2)

/-- C7 witness: locB is the first unresolvable location of a concrete
descriptor, and the run fails naming it with no mutating call. -/
theorem C7_witness :
    ensureOutcome dW7 wW7 = Outcome.fail "Could not find Location locB" ∧
    mutCount (ensureTrace dW7 wW7) = 0 := by
  have h := C7_theorem dW7 wW7 "locB" rfl rfl (by decide)
  exact ⟨h.1.trans (by decide), h.2.2.1⟩

/-- C8 (counterexample). A successful no-op run (Absent state, no
existing match): it neither completes a mutating action (its trace holds
zero creates/updates/deletes) nor fails — refuting the claimed
dichotomy "either completes exactly one mutating action or fails". -/
theorem C8_counterexample :
    ensure dX8 {} = (Outcome.ok false none, {}, [Event.searchPT "n8"]) ∧
    isFail (ensureOutcome dX8 {}) = false ∧
    mutCount (ensureTrace dX8 {}) = 0 := by
  exact ⟨by decide, by decide, by decide⟩

/-- C8 (corrected). Every run issues AT MOST one mutating call (create,
update or delete), and every run that fails without having issued a
mutating call leaves the remote store unchanged.  ("Exactly one" is
weakened to "at most one": successful no-op runs issue none, see
`C8_counterexample`.) -/
theorem C8_amended (d : Descriptor) (w : World) :
    mutCount (ensureTrace d w) ≤ 1 ∧
    (∀ m, ensureOutcome d w = Outcome.fail m → mutCount (ensureTrace d w) = 0 →
      ensureWorld d w = w) := by
  obtain ⟨ls, fs, ts, h1, h2, h3, h4, h5, h6, h7, h8⟩ := ensure_shape d w
  exact ⟨h5, fun m hm _ => h7 m hm⟩

/-- C9 (confirmed). When the locations parameter is empty (or omitted —
the module treats None and [] alike), no create/update payload of the
run carries a location_ids key at all. -/
theorem C9_theorem (d : Descriptor) (w : World) (h : d.locations = []) :
    ∀ pd ∈ payloads (ensureTrace d w), pd.location_ids = none := by
  obtain ⟨ls, fs, ts, h1, h2, h3, h4, h5, h6, h7, h8⟩ := ensure_shape d w
  intro pd hpd
  obtain ⟨li, hpd1, hpd2⟩ := h6 pd hpd
  have hli : li = none := hpd2 (by rw [h]; rfl)
  rw [hpd1, hli]
  rfl

/-- C9 witness: the create payload of a concrete run with empty
locations carries no location_ids. -/
theorem C9_witness :
    ((⟨"n9", none, "ly", none⟩ : PTData) ∈ payloads (ensureTrace dW9 {})) ∧
    (⟨"n9", none, "ly", none⟩ : PTData).location_ids = none := by
  exact ⟨by decide, C9_theorem dW9 {} rfl _ (by decide)⟩

/-- C10 (confirmed). Every create/update payload carries an os_family
entry equal to the os-family parameter (None when omitted); os-family
differences alone never trigger an update (a fetched record whose layout
already matches is left alone whatever its os_family); and an update
triggered by a layout difference rewrites the stored record's os_family
to the parameter. -/
theorem C10_theorem (d : Descriptor) (w : World) :
    (∀ pd ∈ payloads (ensureTrace d w), pd.os_family = d.os_family) ∧
    (∀ p r, findByName w.ptables d.name = some p → findById w.ptables p.id = some r →
      (r.layout = d.layout ∨ r.layout = some (resolvedVal d w)) →
      ∀ i pd, Event.updatePT i pd ∉ ensureTrace d w) ∧
    (∀ i pd, w.updateErr = false → Event.updatePT i pd ∈ ensureTrace d w →
      ∃ ru, findById (ensureWorld d w).ptables i = some ru ∧
        ru.os_family = d.os_family ∧ ru.layout = some pd.layout) := by
  obtain ⟨ls, fs, ts, h1, h2, h3, h4, h5, h6, h7, h8⟩ := ensure_shape d w
  refine ⟨?_, ?_, ?_⟩
  · intro pd hpd
    obtain ⟨li, hpd1, _⟩ := h6 pd hpd
    rw [hpd1]
    rfl
  · intro p r hp hr heq i pd hmem
    obtain ⟨_, hpl, _, p', r', hp', hr', hi, hne', _⟩ := h8 i pd hmem
    rw [hp] at hp'
    obtain rfl := Option.some.inj hp'
    rw [hr] at hr'
    obtain rfl := Option.some.inj hr'
    rw [hpl] at hne'
    exact hne' heq
  · intro i pd hue hmem
    obtain ⟨ho, hpl, hst, p', r', hp', hr', hi, hne', heq⟩ := h8 i pd hmem
    obtain ⟨hw', _⟩ := heq hue
    subst hi
    have hrid : r'.id = p'.id := (findById_mem w.ptables p'.id r' hr').2
    have hfid : findById w.ptables r'.id = some r' := by
      rw [hrid]
      exact hr'
    have hupd : applyUpdate w r'.id pd =
        (some (applyUpdateRec r' pd),
         { w with ptables := replaceById w.ptables r'.id (applyUpdateRec r' pd) }) := by
      rw [applyUpdate, hfid]
    rw [hw', hupd]
    refine ⟨applyUpdateRec r' pd, ?_, ?_, rfl⟩
    · exact findById_replace w.ptables r'.id r' (applyUpdateRec r' pd) hfid rfl
    · rw [← ho]
      rfl

/-- C10 witness: a concrete layout-triggered update sends os_family and
overwrites the stored record's os_family. -/
theorem C10_witness :
    (Event.updatePT 5 (⟨"u", none, "new", some "fam"⟩ : PTData) ∈ ensureTrace dW10 wW10) ∧
    ∃ ru, findById (ensureWorld dW10 wW10).ptables 5 = some ru ∧
      ru.os_family = some "fam" ∧ ru.layout = some "new" := by
  refine ⟨by decide, ?_⟩
  exact (C10_theorem dW10 wW10).2.2 5 ⟨"u", none, "new", some "fam"⟩ rfl (by decide)

end Foreman
